import Mathlib

/-!
Verification of the poll-based TCP connection multiplexer
(`poll_tcp_server.cpp`): the readiness dispatch pass of `TcpServer::run`,
the staged lifecycle commit (`close_clients` / `add_new_clients`), the
constructor null-handler check, and the `BroadCastChatHandler` chat logic.

The embedding is functional: OS interactions (poll results, `accept`,
`recv`) are supplied by an environment record, handler callbacks are
recorded as an event trace, and the `std::vector<pollfd>` registry is a
Lean list.
-/

namespace PollTcp

/-- The readiness / interest flag set of a `pollfd`
(POLLIN, POLLOUT, POLLERR, POLLHUP, POLLNVAL). -/
structure Flags where
  pollin : Bool
  pollout : Bool
  pollerr : Bool
  pollhup : Bool
  pollnval : Bool
deriving DecidableEq, Repr

/-- No flag set (`revents = 0`). -/
def Flags.zero : Flags := ⟨false, false, false, false, false⟩

/-- Only POLLIN set: the interest mask of every entry the server creates. -/
def Flags.inOnly : Flags := ⟨true, false, false, false, false⟩

/-- One entry of the `std::vector<pollfd> fds` registry:
descriptor, interest mask (`events`) and last observed readiness
(`revents`). -/
structure Pollfd where
  fd : Int
  events : Flags
  revents : Flags
deriving DecidableEq, Repr

/-- Insertion into an `unordered_set<int>`, modelled as a duplicate-free
list: inserting an element already present changes nothing. -/
def insertSet (s : List Int) (x : Int) : List Int :=
  if x ∈ s then s else s ++ [x]

/-- A handler callback invocation observed during a pass. -/
inductive Event where
  | connect (fd : Int)
  | data (fd : Int) (bytes : List Nat)
  | disconnect (fd : Int)
deriving DecidableEq, Repr

/-- Returns `true` iff the event is an `on_client_data` call for descriptor `f`. -/
def Event.isDataFor (f : Int) : Event → Bool
  | .data fd _ => fd == f
  | _ => false

/-- Returns `true` iff the event is an `on_client_disconnect` call for `f`. -/
def Event.isDisconnectFor (f : Int) : Event → Bool
  | .disconnect fd => fd == f
  | _ => false

/-- The OS-supplied outcomes for one dispatch pass: the result of the
`k`-th `accept` call, and per descriptor the return value of the bounded
`recv` into the 1024-byte buffer together with the bytes it deposited. -/
structure PassEnv where
  acceptResult : Nat → Int
  recv : Int → Int
  recvBytes : Int → List Nat

/-- The mutable state accumulated while the `for` loop of
`TcpServer::run` scans the registry: the callback trace, the two staging
sets, and how many `accept` calls have been made this pass. -/
structure ScanState where
  trace : List Event
  newClients : List Int
  removeClients : List Int
  acceptCount : Nat
deriving Repr

/-- Initial scan state (both staging sets freshly cleared). -/
def ScanState.init : ScanState := ⟨[], [], [], 0⟩

/-- One iteration of the dispatch loop body of `TcpServer::run` for the
entry `pfd`: POLLNVAL, POLLERR and POLLHUP are only reported; POLLIN on
the listening descriptor accepts one connection (invoking `on_client_connect`
and staging the new descriptor for addition when `accept` succeeds), POLLIN
on a client descriptor performs the bounded read
(`handle_existing_client_read`), staging the descriptor for removal on a
non-positive result and invoking `on_client_data` otherwise; POLLOUT is
only reported. -/
def scanEntry (serverFd : Int) (env : PassEnv) (acc : ScanState)
    (pfd : Pollfd) : ScanState :=
  if pfd.revents.pollin then
    if pfd.fd = serverFd then
      let newFd := env.acceptResult acc.acceptCount
      if 0 ≤ newFd then
        { acc with
          trace := acc.trace ++ [.connect newFd]
          newClients := insertSet acc.newClients newFd
          acceptCount := acc.acceptCount + 1 }
      else
        { acc with acceptCount := acc.acceptCount + 1 }
    else
      let nb := env.recv pfd.fd
      if nb ≤ 0 then
        { acc with removeClients := insertSet acc.removeClients pfd.fd }
      else
        { acc with trace := acc.trace ++ [.data pfd.fd (env.recvBytes pfd.fd)] }
  else
    acc

/-- The full dispatch scan: the `for(size_t i = 0; i < fds.size(); ++i)`
loop of `TcpServer::run`, visiting the registry entries in order without
mutating the registry. -/
def scanFds (serverFd : Int) (env : PassEnv) (fds : List Pollfd) : ScanState :=
  fds.foldl (scanEntry serverFd env) ScanState.init

/-- Model of `TcpServer::close_clients`: walk the registry in order; every entry
whose descriptor is in the removal set is closed (unless its observed
flags include POLLNVAL), gets exactly one `on_client_disconnect`
callback, and is erased in place; all other entries survive unchanged.
Returns the surviving registry, the disconnect trace in registry order,
and the list of descriptors actually passed to `close`. -/
def closeClients (removeSet : List Int) :
    List Pollfd → List Pollfd × List Event × List Int
  | [] => ([], [], [])
  | e :: rest =>
    let r := closeClients removeSet rest
    if e.fd ∈ removeSet then
      (r.1, Event.disconnect e.fd :: r.2.1,
        if e.revents.pollnval then r.2.2 else e.fd :: r.2.2)
    else
      (e :: r.1, r.2.1, r.2.2)

/-- Model of `TcpServer::add_new_clients`: append one entry (fd, POLLIN, 0) per
staged addition to the end of the registry. -/
def addNewClients (newSet : List Int) (fds : List Pollfd) : List Pollfd :=
  fds ++ newSet.map (fun fd => ⟨fd, Flags.inOnly, Flags.zero⟩)

/-- One full iteration of the `while` loop of `TcpServer::run` after a
successful poll: clear the staging sets, scan every registry entry, then
commit — `close_clients` followed by `add_new_clients`. Returns the new
registry and the complete callback trace of the pass. -/
def runPass (serverFd : Int) (env : PassEnv) (fds : List Pollfd) :
    List Pollfd × List Event :=
  let s := scanFds serverFd env fds
  let c := closeClients s.removeClients fds
  (addNewClients s.newClients c.1, s.trace ++ c.2.1)

/-- The outcome of one `poll(fds.data(), fds.size(), -1)` call: either a
negative return (error) or readiness data for a dispatch pass. -/
inductive PollOutcome where
  | pollError
  | ready (env : PassEnv)

/-- The `while(true)` readiness loop of `TcpServer::run`, driven by a
stream of poll outcomes and bounded by fuel: a poll error breaks the
loop and `run` returns normally (`some` final registry); exhausted fuel
means the loop was still running (`none`). -/
def runLoop (serverFd : Int) :
    Nat → (Nat → PollOutcome) → List Pollfd → Option (List Pollfd)
  | 0, _, _ => none
  | n + 1, outcomes, fds =>
    match outcomes 0 with
    | .pollError => some fds
    | .ready env => runLoop serverFd n (fun k => outcomes (k + 1)) (runPass serverFd env fds).1

/-- The two demonstration handler implementations of `IClientHandler`. -/
inductive HandlerKind where
  | echo
  | broadcastChat
deriving DecidableEq, Repr

/-- The state a constructed `TcpServer` holds: the listening descriptor,
the configured port, the (necessarily non-null) handler, and the
registry. -/
structure ServerState where
  serverFd : Int
  port : Int
  handler : HandlerKind
  fds : List Pollfd
deriving Repr

/-- Outcomes of the OS calls made by `TcpServer::setup_socket`:
the value `socket()` returns, and whether `bind` and `listen` succeed. -/
structure SetupEnv where
  socketResult : Int
  bindOk : Bool
  listenOk : Bool

/-- The `TcpServer` constructor followed by `setup_socket`: a null
handler raises `runtime_error` before `setup_socket` runs; otherwise
socket creation, bind and listen each abort with their own error, and on
success the listening descriptor is registered with read interest.
The second component counts how many `socket()` calls were made. -/
def TcpServerMk (port : Int) (h : Option HandlerKind) (env : SetupEnv) :
    Except String ServerState × Nat :=
  match h with
  | none => (.error "client handle can not be null", 0)
  | some hh =>
    if env.socketResult < 0 then (.error "Socket Creation failed", 1)
    else if !env.bindOk then (.error "Socket binding failed", 1)
    else if !env.listenOk then (.error "Socket listening failed", 1)
    else (.ok ⟨env.socketResult, port, hh,
      [⟨env.socketResult, Flags.inOnly, Flags.zero⟩]⟩, 1)

/-- The exit status of `main`: a constructor/setup exception is caught
and yields `EXIT_FAILURE` (1); otherwise `run` is entered and, when it
returns (only a poll error makes it return), `main` returns 0. `none`
means the loop was still running within the given fuel. -/
def mainExitCode (setup : Except String ServerState) (fuel : Nat)
    (outcomes : Nat → PollOutcome) : Option Nat :=
  match setup with
  | .error _ => some 1
  | .ok st =>
    match runLoop st.serverFd fuel outcomes st.fds with
    | some _ => some 0
    | none => none

/-! ## The BroadCastChatHandler -/

/-- Model of `nick_names.find(fd)` on the `unordered_map<int, std::string>`,
modelled as an association list. -/
def lookupNick : List (Int × String) → Int → Option String
  | [], _ => none
  | (k, v) :: rest, fd => if k = fd then some v else lookupNick rest fd

/-- Model of the write nick_names at fd to v: overwrite if present, insert otherwise. -/
def insertNick : List (Int × String) → Int → String → List (Int × String)
  | [], fd, v => [(fd, v)]
  | (k, w) :: rest, fd, v =>
    if k = fd then (fd, v) :: rest else (k, w) :: insertNick rest fd v

/-- Model of `nick_names.erase(fd)`. -/
def eraseNick : List (Int × String) → Int → List (Int × String)
  | [], _ => []
  | (k, w) :: rest, fd =>
    if k = fd then eraseNick rest fd else (k, w) :: eraseNick rest fd

/-- Model of `clients.erase(fd)` on the membership `unordered_set<int>`. -/
def eraseSet (s : List Int) (x : Int) : List Int :=
  s.filter (fun y => y ≠ x)

/-- The two `msg.erase(std::remove(...), msg.end())` lines of
`BroadCastChatHandler::on_client_data`: delete every occurrence of a
carriage return, then every occurrence of a line feed, wherever it
appears in the string. -/
def stripCRLF (s : String) : String :=
  ⟨(s.data.filter (fun c => c ≠ '\r')).filter (fun c => c ≠ '\n')⟩

/-- Modelled from the spec: the strip operation as §4.5 words it —
"strips trailing line-terminator characters" — removing the maximal
suffix of CR/LF characters and nothing else. Used only to compare the
spec's wording against `stripCRLF`, which is what the code does. -/
def stripTrailingTerminators (s : String) : String :=
  ⟨(s.data.reverse.dropWhile (fun c => c = '\r' ∨ c = '\n')).reverse⟩

/-- The `BroadCastChatHandler` session state: the membership set and the
display-name map. -/
structure ChatState where
  clients : List Int
  nickNames : List (Int × String)
deriving Repr

/-- Model of `BroadCastChatHandler::broadcast`: write `msg` to every member of
the membership set other than the sender. Returns the (recipient,
payload) sends in membership order. -/
def chatBroadcast (clients : List Int) (senderFd : Int) (msg : String) :
    List (Int × String) :=
  (clients.filter (fun fd => fd ≠ senderFd)).map (fun fd => (fd, msg))

/-- Model of `BroadCastChatHandler::on_client_connect`: add the connection to the
membership set and prompt it for a nickname. -/
def chatOnConnect (st : ChatState) (fd : Int) : ChatState × List (Int × String) :=
  ({ st with clients := insertSet st.clients fd },
    [(fd, " Enter your nickname: ")])

/-- Model of `BroadCastChatHandler::on_client_data`: build the string from the
received bytes, delete every CR and LF; if the sender has no nickname
yet the stripped text becomes its nickname and a join announcement is
broadcast; otherwise the stripped text is broadcast prefixed with the
sender's nickname. Returns the new state and the sends performed. -/
def chatOnData (st : ChatState) (fd : Int) (data : String) :
    ChatState × List (Int × String) :=
  let msg := stripCRLF data
  match lookupNick st.nickNames fd with
  | none =>
    let st' := { st with nickNames := insertNick st.nickNames fd msg }
    (st', chatBroadcast st'.clients fd (msg ++ " joined the chat\n"))
  | some name =>
    (st, chatBroadcast st.clients fd (name ++ ": " ++ msg ++ "\n"))

/-- Model of `BroadCastChatHandler::on_client_disconnect`: pick the display name
(or the `Client <fd>` fallback), erase the connection from membership
and from the name map, then broadcast the departure announcement. -/
def chatOnDisconnect (st : ChatState) (fd : Int) :
    ChatState × List (Int × String) :=
  let name := match lookupNick st.nickNames fd with
    | some n => n
    | none => "Client " ++ toString fd
  let st' : ChatState :=
    ⟨eraseSet st.clients fd, eraseNick st.nickNames fd⟩
  (st', chatBroadcast st'.clients fd (name ++ " left the chat\n"))

/-! ## Helper lemmas -/

/-- Membership in the staged-set insertion. -/
lemma mem_insertSet {s : List Int} {x y : Int} :
    y ∈ insertSet s x ↔ y ∈ s ∨ y = x := by
  unfold insertSet
  by_cases h : x ∈ s
  · rw [if_pos h]
    constructor
    · exact Or.inl
    · rintro (hy | rfl)
      · exact hy
      · exact h
  · rw [if_neg h]
    simp

/-- Inserting a descriptor into a staging set twice is the same as
inserting it once (`unordered_set::insert` is idempotent). -/
lemma insertSet_idem (s : List Int) (x : Int) :
    insertSet (insertSet s x) x = insertSet s x := by
  unfold insertSet
  by_cases h : x ∈ s
  · simp [h]
  · simp [h]

/-- The predicate on a registry entry saying its dispatch in this pass
produces an `on_client_data` call for descriptor `f`: readable flag set,
not the listening descriptor, and the bounded read returns a positive
count. -/
def dataCond (serverFd : Int) (env : PassEnv) (f : Int) (e : Pollfd) : Bool :=
  e.revents.pollin && decide (e.fd ≠ serverFd) && decide (0 < env.recv e.fd)
    && decide (e.fd = f)

/-- How one scan step changes the number of data events for `f`. -/
lemma scanEntry_trace_data_count (serverFd : Int) (env : PassEnv) (f : Int)
    (acc : ScanState) (e : Pollfd) :
    ((scanEntry serverFd env acc e).trace.countP (Event.isDataFor f)) =
      acc.trace.countP (Event.isDataFor f)
        + (if dataCond serverFd env f e then 1 else 0) := by
  unfold scanEntry dataCond
  by_cases hin : e.revents.pollin
  · by_cases hsrv : e.fd = serverFd
    · by_cases hacc : 0 ≤ env.acceptResult acc.acceptCount
      · simp [hin, hsrv, hacc, List.countP_append, Event.isDataFor]
      · simp [hin, hsrv, hacc]
    · by_cases hnb : env.recv e.fd ≤ 0
      · have : ¬(0 < env.recv e.fd) := by omega
        simp [hin, hsrv, hnb, this]
      · have h0 : 0 < env.recv e.fd := by omega
        by_cases hef : e.fd = f
        · subst hef
          simp [hin, hsrv, hnb, h0, List.countP_append, Event.isDataFor,
            List.countP_cons]
        · simp [hin, hsrv, hnb, h0, hef, List.countP_append, Event.isDataFor,
            List.countP_cons]
  · simp [hin]

/-- Across the whole scan, the number of data events for `f` is the
number of registry entries whose dispatch reads data from `f`. -/
lemma scan_trace_data_count (serverFd : Int) (env : PassEnv) (f : Int)
    (l : List Pollfd) :
    ∀ acc : ScanState,
    ((l.foldl (scanEntry serverFd env) acc).trace.countP (Event.isDataFor f)) =
      acc.trace.countP (Event.isDataFor f)
        + l.countP (dataCond serverFd env f) := by
  induction l with
  | nil => intro acc; simp
  | cons e rest ih =>
    intro acc
    rw [List.foldl_cons, ih, List.countP_cons,
      scanEntry_trace_data_count serverFd env f acc e]
    omega

/-- The scan emits no `on_client_disconnect` event. -/
lemma scan_trace_disconnect_count (serverFd : Int) (env : PassEnv) (f : Int)
    (l : List Pollfd) :
    ∀ acc : ScanState,
    ((l.foldl (scanEntry serverFd env) acc).trace.countP (Event.isDisconnectFor f))
      = acc.trace.countP (Event.isDisconnectFor f) := by
  induction l with
  | nil => intro acc; simp
  | cons e rest ih =>
    intro acc
    rw [List.foldl_cons, ih]
    unfold scanEntry
    by_cases hin : e.revents.pollin
    · by_cases hsrv : e.fd = serverFd
      · by_cases hacc : 0 ≤ env.acceptResult acc.acceptCount
        · simp [hin, hsrv, hacc, List.countP_append, Event.isDisconnectFor]
        · simp [hin, hsrv, hacc]
      · by_cases hnb : env.recv e.fd ≤ 0
        · simp [hin, hsrv, hnb]
        · simp [hin, hsrv, hnb, List.countP_append, Event.isDisconnectFor]
    · simp [hin]

/-- How one scan step changes membership in the removal staging set:
only a non-listening readable entry whose read returns a non-positive
count stages its descriptor. -/
lemma scanEntry_remove_mem (serverFd : Int) (env : PassEnv) (x : Int)
    (acc : ScanState) (e : Pollfd) :
    x ∈ (scanEntry serverFd env acc e).removeClients ↔
      x ∈ acc.removeClients ∨ (e.revents.pollin = true ∧
        e.fd ≠ serverFd ∧ env.recv e.fd ≤ 0 ∧ e.fd = x) := by
  unfold scanEntry
  by_cases hin : e.revents.pollin
  · by_cases hsrv : e.fd = serverFd
    · by_cases hacc : 0 ≤ env.acceptResult acc.acceptCount
      · simp [hin, hsrv, hacc]
      · simp [hin, hsrv, hacc]
    · by_cases hnb : env.recv e.fd ≤ 0
      · simp only [hin, if_true, if_neg hsrv, if_pos hnb, mem_insertSet]
        constructor
        · rintro (h | rfl)
          · exact Or.inl h
          · exact Or.inr ⟨by simp [hin], hsrv, hnb, rfl⟩
        · rintro (h | ⟨-, -, -, rfl⟩)
          · exact Or.inl h
          · exact Or.inr rfl
      · simp [hin, hsrv, hnb]
  · simp [hin]

/-- A descriptor is in the removal staging set after the scan iff it was
there before or some scanned entry read end-of-file/error from it. -/
lemma scan_remove_mem (serverFd : Int) (env : PassEnv) (x : Int)
    (l : List Pollfd) :
    ∀ acc : ScanState,
    (x ∈ (l.foldl (scanEntry serverFd env) acc).removeClients ↔
      x ∈ acc.removeClients ∨ ∃ e ∈ l, e.revents.pollin = true ∧
        e.fd ≠ serverFd ∧ env.recv e.fd ≤ 0 ∧ e.fd = x) := by
  induction l with
  | nil => intro acc; simp
  | cons e rest ih =>
    intro acc
    rw [List.foldl_cons, ih, scanEntry_remove_mem,
      List.exists_mem_cons_iff]
    tauto

/-- The registry surviving `close_clients` is exactly the entries whose
descriptor is not staged for removal, in their original order. -/
lemma closeClients_fst (rm : List Int) :
    ∀ l : List Pollfd,
      (closeClients rm l).1 = l.filter (fun e => !(decide (e.fd ∈ rm))) := by
  intro l
  induction l with
  | nil => rfl
  | cons e rest ih =>
    unfold closeClients
    by_cases h : e.fd ∈ rm
    · simp [h, ih]
    · simp [h, ih]

/-- The function `close_clients` invokes `on_client_disconnect` exactly on the
registry entries staged for removal, in registry order. -/
lemma closeClients_trace (rm : List Int) :
    ∀ l : List Pollfd,
      (closeClients rm l).2.1 =
        (l.filter (fun e => decide (e.fd ∈ rm))).map
          (fun e => Event.disconnect e.fd) := by
  intro l
  induction l with
  | nil => rfl
  | cons e rest ih =>
    unfold closeClients
    by_cases h : e.fd ∈ rm
    · simp [h, ih]
    · simp [h, ih]

/-- The number of disconnect callbacks `close_clients` makes for a given
descriptor is the number of its staged registry entries. -/
lemma closeClients_disconnect_count (rm : List Int) (f : Int)
    (l : List Pollfd) :
    (closeClients rm l).2.1.countP (Event.isDisconnectFor f) =
      l.countP (fun e => decide (e.fd = f) && decide (e.fd ∈ rm)) := by
  rw [closeClients_trace, List.countP_map, List.countP_filter]
  have h : ((Event.isDisconnectFor f) ∘ fun e : Pollfd => Event.disconnect e.fd)
      = fun e : Pollfd => decide (e.fd = f) := by
    funext e
    rfl
  rw [show (fun a : Pollfd => ((Event.isDisconnectFor f) ∘
      fun e : Pollfd => Event.disconnect e.fd) a && decide (a.fd ∈ rm))
      = fun a : Pollfd => decide (a.fd = f) && decide (a.fd ∈ rm) from
    funext fun a => by rw [congrFun h a]]

/-- The function `close_clients` makes no `on_client_data` call. -/
lemma closeClients_data_count (rm : List Int) (f : Int) (l : List Pollfd) :
    (closeClients rm l).2.1.countP (Event.isDataFor f) = 0 := by
  rw [closeClients_trace, List.countP_map]
  apply List.countP_eq_zero.mpr
  intro a _
  simp [Event.isDataFor, Function.comp]

/-- If a predicate holds at exactly one position of a list, any two
members satisfying it are equal. -/
lemma countP_eq_one_unique {α : Type} {l : List α} {p : α → Bool}
    (h : l.countP p = 1) {a b : α} (ha : a ∈ l) (hb : b ∈ l)
    (hpa : p a = true) (hpb : p b = true) : a = b := by
  rw [List.countP_eq_length_filter] at h
  obtain ⟨x, hx⟩ := List.length_eq_one.mp h
  have ha' : a ∈ l.filter p := List.mem_filter.mpr ⟨ha, hpa⟩
  have hb' : b ∈ l.filter p := List.mem_filter.mpr ⟨hb, hpb⟩
  rw [hx, List.mem_singleton] at ha' hb'
  rw [ha', hb']

/-- Every event the scan emits is either inherited from the
accumulator, a connect notification, or a data callback carrying exactly
the bytes `recv` deposited for some scanned entry's descriptor. -/
lemma scan_trace_mem (serverFd : Int) (env : PassEnv) (l : List Pollfd) :
    ∀ (acc : ScanState) (ev : Event),
      ev ∈ (l.foldl (scanEntry serverFd env) acc).trace →
        ev ∈ acc.trace ∨ (∃ x, ev = Event.connect x) ∨
          ∃ e ∈ l, ev = Event.data e.fd (env.recvBytes e.fd) := by
  induction l with
  | nil => intro acc ev h; exact Or.inl h
  | cons e rest ih =>
    intro acc ev h
    rw [List.foldl_cons] at h
    rcases ih (scanEntry serverFd env acc e) ev h with h' | h' | ⟨e', he', rfl⟩
    · unfold scanEntry at h'
      by_cases hin : e.revents.pollin
      · by_cases hsrv : e.fd = serverFd
        · by_cases hacc : 0 ≤ env.acceptResult acc.acceptCount
          · simp only [hin, if_true, if_pos hsrv, if_pos hacc,
              List.mem_append, List.mem_singleton] at h'
            rcases h' with h' | rfl
            · exact Or.inl h'
            · exact Or.inr (Or.inl ⟨_, rfl⟩)
          · simp only [hin, if_true, if_pos hsrv, if_neg hacc] at h'
            exact Or.inl h'
        · by_cases hnb : env.recv e.fd ≤ 0
          · simp only [hin, if_true, if_neg hsrv, if_pos hnb] at h'
            exact Or.inl h'
          · simp only [hin, if_true, if_neg hsrv, if_neg hnb,
              List.mem_append, List.mem_singleton] at h'
            rcases h' with h' | rfl
            · exact Or.inl h'
            · exact Or.inr (Or.inr ⟨e, List.mem_cons_self e rest, rfl⟩)
      · simp only [if_neg hin] at h'
        exact Or.inl h'
    · exact Or.inr (Or.inl h')
    · exact Or.inr (Or.inr ⟨e', List.mem_cons_of_mem e he', rfl⟩)

/-- Looking up a key just written into the nickname map yields the
written value. -/
lemma lookupNick_insertNick (m : List (Int × String)) (fd : Int) (v : String) :
    lookupNick (insertNick m fd v) fd = some v := by
  induction m with
  | nil => simp [insertNick, lookupNick]
  | cons kv rest ih =>
    obtain ⟨k, w⟩ := kv
    unfold insertNick
    by_cases h : k = fd
    · simp [h, lookupNick]
    · simp [h, lookupNick, ih]

/-- A string consisting only of carriage returns and line feeds strips
to the empty string. -/
lemma stripCRLF_all_terminators {s : String}
    (h : ∀ c ∈ s.data, c = '\r' ∨ c = '\n') : stripCRLF s = "" := by
  unfold stripCRLF
  have h1 : s.data.filter (fun c => c ≠ '\r') = s.data.filter (fun c => decide (c = '\n')) := by
    apply List.filter_congr
    intro c hc
    rcases h c hc with rfl | rfl <;> simp
  rw [h1, List.filter_filter]
  have h2 : ∀ c : Char, (decide (c ≠ '\n') && decide (c = '\n')) = false := by
    intro c
    by_cases hc : c = '\n' <;> simp [hc]
  have h3 : s.data.filter (fun c => decide (c ≠ '\n') && decide (c = '\n')) = [] := by
    apply List.filter_eq_nil_iff.mpr
    intro c _
    rw [h2 c]
    exact Bool.false_ne_true
  rw [h3]

/-- Characterization of one broadcast fan-out: a pair is among the sends
iff its recipient is a member other than the sender and its payload is
the broadcast message. -/
lemma mem_chatBroadcast {clients : List Int} {sender r : Int}
    {msg m : String} :
    (r, m) ∈ chatBroadcast clients sender msg ↔
      r ∈ clients ∧ r ≠ sender ∧ m = msg := by
  unfold chatBroadcast
  rw [List.mem_map]
  constructor
  · rintro ⟨fd, hfd, heq⟩
    obtain ⟨hfd1, hfd2⟩ := List.mem_filter.mp hfd
    obtain ⟨rfl, rfl⟩ := Prod.mk.injEq .. ▸ heq
    exact ⟨hfd1, by simpa using hfd2, rfl⟩
  · rintro ⟨h1, h2, rfl⟩
    exact ⟨r, List.mem_filter.mpr ⟨h1, by simpa using h2⟩, rfl⟩

/-- Membership in the erased membership set. -/
lemma mem_eraseSet {s : List Int} {x y : Int} :
    y ∈ eraseSet s x ↔ y ∈ s ∧ y ≠ x := by
  simp [eraseSet, List.mem_filter]

/-- Evaluating `on_client_data` on a connection with no nickname yet: the stripped
text becomes the nickname and the join announcement is broadcast. -/
lemma chatOnData_eq_none {st : ChatState} {fd : Int} (data : String)
    (hl : lookupNick st.nickNames fd = none) :
    chatOnData st fd data =
      (⟨st.clients, insertNick st.nickNames fd (stripCRLF data)⟩,
        chatBroadcast st.clients fd (stripCRLF data ++ " joined the chat\n")) := by
  unfold chatOnData
  rw [hl]

/-- Evaluating `on_client_data` on a named connection: the stripped text is
broadcast prefixed by the nickname and the state is unchanged. -/
lemma chatOnData_eq_some {st : ChatState} {fd : Int} {name : String}
    (data : String) (hl : lookupNick st.nickNames fd = some name) :
    chatOnData st fd data =
      (st, chatBroadcast st.clients fd (name ++ ": " ++ stripCRLF data ++ "\n")) := by
  unfold chatOnData
  rw [hl]

/-- Prepending the empty string to a string changes nothing. -/
lemma empty_string_append (s : String) : "" ++ s = s := rfl

/-! ## Claim theorems -/

/-- C8: commit is a frame-preserving registry update: survivors of
`close_clients` are exactly the entries not staged for removal, kept
with identical fields in their original relative order (a sublist of the
input registry), every staged entry is erased, and `add_new_clients`
appends all additions at the end of the sequence. -/
theorem commit_frame_preserving :
    ∀ (rm newSet : List Int) (fds : List Pollfd),
      (closeClients rm fds).1 = fds.filter (fun e => !(decide (e.fd ∈ rm))) ∧
      ((closeClients rm fds).1).Sublist fds ∧
      (∀ e ∈ fds, e.fd ∉ rm → e ∈ (closeClients rm fds).1) ∧
      (∀ e ∈ (closeClients rm fds).1, e.fd ∉ rm) ∧
      addNewClients newSet (closeClients rm fds).1 =
        (closeClients rm fds).1 ++
          newSet.map (fun fd => ⟨fd, Flags.inOnly, Flags.zero⟩) := by
  intro rm newSet fds
  refine ⟨closeClients_fst rm fds, ?_, ?_, ?_, rfl⟩
  · rw [closeClients_fst]
    exact List.filter_sublist fds
  · intro e he hrm
    rw [closeClients_fst]
    exact List.mem_filter.mpr ⟨he, by simpa using hrm⟩
  · intro e he
    rw [closeClients_fst] at he
    simpa using (List.mem_filter.mp he).2

/-- C8 witness: a concrete commit keeping the untouched entry. -/
theorem commit_frame_preserving_witness :
    (⟨0, Flags.inOnly, Flags.zero⟩ : Pollfd) ∈
      (closeClients [5] [⟨0, Flags.inOnly, Flags.zero⟩,
        ⟨5, Flags.inOnly, Flags.zero⟩]).1 :=
  (commit_frame_preserving [5] [9]
      [⟨0, Flags.inOnly, Flags.zero⟩, ⟨5, Flags.inOnly, Flags.zero⟩]).2.2.1
    ⟨0, Flags.inOnly, Flags.zero⟩ (by decide) (by decide)

/-- C9: constructing the server with a null handler fails with the
`runtime_error` before `setup_socket` runs (zero `socket()` calls), for
every port and environment; and any successfully constructed server
holds the (non-null) handler it was given. -/
theorem null_handler_rejected :
    (∀ (port : Int) (env : SetupEnv),
      TcpServerMk port none env = (.error "client handle can not be null", 0)) ∧
    (∀ (port : Int) (h : Option HandlerKind) (env : SetupEnv)
        (st : ServerState) (n : Nat),
      TcpServerMk port h env = (.ok st, n) → h = some st.handler) := by
  constructor
  · intro port env
    rfl
  · intro port h env st n heq
    cases h with
    | none => simp [TcpServerMk] at heq
    | some hh =>
      unfold TcpServerMk at heq
      split_ifs at heq
      · exact absurd (congrArg Prod.fst heq) (by simp)
      · exact absurd (congrArg Prod.fst heq) (by simp)
      · exact absurd (congrArg Prod.fst heq) (by simp)
      · have h1 := congrArg Prod.fst heq
        simp only at h1
        obtain rfl := Except.ok.inj h1
        rfl

/-- C9 witness: a successful concrete construction holds its handler. -/
theorem null_handler_rejected_witness :
    some HandlerKind.echo =
      some (⟨3, 9000, HandlerKind.echo,
        [⟨3, Flags.inOnly, Flags.zero⟩]⟩ : ServerState).handler :=
  null_handler_rejected.2 9000 (some .echo) ⟨3, true, true⟩
    ⟨3, 9000, .echo, [⟨3, Flags.inOnly, Flags.zero⟩]⟩ 1 rfl

/-- C7: every broadcast fan-out delivers the message to exactly the
members of the membership set other than the sender and never to the
sender; in particular neither `on_client_data` fan-out (join or chat
line) nor the `on_client_disconnect` departure fan-out ever sends to the
originating connection, and every other member receives a message. -/
theorem broadcast_excludes_sender :
    (∀ (clients : List Int) (sender r : Int) (msg m : String),
      ((r, m) ∈ chatBroadcast clients sender msg ↔
        r ∈ clients ∧ r ≠ sender ∧ m = msg)) ∧
    (∀ (st : ChatState) (fd : Int) (data : String),
      (∀ p ∈ (chatOnData st fd data).2, p.1 ≠ fd) ∧
      (∀ r ∈ st.clients, r ≠ fd → ∃ m, (r, m) ∈ (chatOnData st fd data).2)) ∧
    (∀ (st : ChatState) (fd : Int),
      (∀ p ∈ (chatOnDisconnect st fd).2, p.1 ≠ fd) ∧
      (∀ r ∈ st.clients, r ≠ fd → ∃ m, (r, m) ∈ (chatOnDisconnect st fd).2)) := by
  refine ⟨fun _ _ _ _ _ => mem_chatBroadcast, ?_, ?_⟩
  · intro st fd data
    unfold chatOnData
    cases hl : lookupNick st.nickNames fd with
    | none =>
      constructor
      · rintro ⟨r, m⟩ hp
        exact (mem_chatBroadcast.mp hp).2.1
      · intro r hr hrfd
        exact ⟨_, mem_chatBroadcast.mpr ⟨hr, hrfd, rfl⟩⟩
    | some name =>
      constructor
      · rintro ⟨r, m⟩ hp
        exact (mem_chatBroadcast.mp hp).2.1
      · intro r hr hrfd
        exact ⟨_, mem_chatBroadcast.mpr ⟨hr, hrfd, rfl⟩⟩
  · intro st fd
    unfold chatOnDisconnect
    constructor
    · rintro ⟨r, m⟩ hp
      exact (mem_chatBroadcast.mp hp).2.1
    · intro r hr hrfd
      exact ⟨_, mem_chatBroadcast.mpr ⟨mem_eraseSet.mpr ⟨hr, hrfd⟩, hrfd, rfl⟩⟩

/-- C7 witness: a concrete fan-out reaches the non-sender member. -/
theorem broadcast_excludes_sender_witness :
    ((7 : Int), "hi") ∈ chatBroadcast [5, 7] 5 "hi" :=
  (broadcast_excludes_sender.1 [5, 7] 5 7 "hi" "hi").mpr
    ⟨by decide, by decide, rfl⟩

/-- C6 counterexample: the handler does not strip only *trailing*
line-terminator characters — it deletes interior ones too. On the input
"a\nb" from the already-named connection 5, stripping only trailing
terminators would leave "a\nb" and fan out "alice: a\nb\n", but the
handler fans out "alice: ab\n". -/
theorem strip_trailing_cex :
    stripCRLF "a\nb" ≠ stripTrailingTerminators "a\nb" ∧
    (chatOnData ⟨[5, 7], [(5, "alice")]⟩ 5 "a\nb").2 = [(7, "alice: ab\n")] ∧
    (7, "alice: a\nb\n") ∉ (chatOnData ⟨[5, 7], [(5, "alice")]⟩ 5 "a\nb").2 := by
  refine ⟨by decide, rfl, by decide⟩

/-- C6 (amended): Broadcast Chat `on_data` deletes every carriage-return
and line-feed character of the received span (interior ones included,
not only trailing ones); if the sender has no assigned display name the
stripped text becomes its name and a join announcement is fanned out to
exactly the other connections (the sender receives nothing); otherwise
the stripped text is fanned out to exactly the other connections
prefixed with the sender's display name. -/
theorem chat_on_data_strips_all (st : ChatState) (fd : Int) (data : String) :
    (lookupNick st.nickNames fd = none →
      (chatOnData st fd data).1.clients = st.clients ∧
      lookupNick (chatOnData st fd data).1.nickNames fd =
        some (stripCRLF data) ∧
      (∀ r m, ((r, m) ∈ (chatOnData st fd data).2 ↔
        r ∈ st.clients ∧ r ≠ fd ∧
          m = stripCRLF data ++ " joined the chat\n"))) ∧
    (∀ name, lookupNick st.nickNames fd = some name →
      (chatOnData st fd data).1 = st ∧
      (∀ r m, ((r, m) ∈ (chatOnData st fd data).2 ↔
        r ∈ st.clients ∧ r ≠ fd ∧
          m = name ++ ": " ++ stripCRLF data ++ "\n"))) := by
  constructor
  · intro hl
    unfold chatOnData
    rw [hl]
    exact ⟨rfl, lookupNick_insertNick st.nickNames fd (stripCRLF data),
      fun r m => mem_chatBroadcast⟩
  · intro name hl
    unfold chatOnData
    rw [hl]
    exact ⟨rfl, fun r m => mem_chatBroadcast⟩

/-- C6 witness: on the concrete state where connection 5 is named
"alice" and 7 is a member, the chat line "hi\n" reaches 7 with the name
prefix. -/
theorem chat_on_data_strips_all_witness :
    ((7 : Int), "alice: hi\n") ∈
      (chatOnData ⟨[5, 7], [(5, "alice")]⟩ 5 "hi\n").2 :=
  (((chat_on_data_strips_all ⟨[5, 7], [(5, "alice")]⟩ 5 "hi\n").2
      "alice" rfl).2 7 "alice: hi\n").mpr ⟨by decide, by decide, by decide⟩

/-- C10: a first message consisting only of line terminators still
names the connection: the empty string is stored as its display name, a
join announcement is fanned out to the other members, and a subsequent
message is broadcast on the chat-line path prefixed by the empty name
(no re-prompting path exists). -/
theorem empty_nickname_accepted (st : ChatState) (fd : Int)
    (data msg2 : String)
    (hnone : lookupNick st.nickNames fd = none)
    (hterm : ∀ c ∈ data.data, c = '\r' ∨ c = '\n') :
    lookupNick (chatOnData st fd data).1.nickNames fd = some "" ∧
    (chatOnData st fd data).2 = chatBroadcast st.clients fd " joined the chat\n" ∧
    (chatOnData (chatOnData st fd data).1 fd msg2).2 =
      chatBroadcast st.clients fd (": " ++ stripCRLF msg2 ++ "\n") ∧
    (chatOnData (chatOnData st fd data).1 fd msg2).1 =
      (chatOnData st fd data).1 := by
  have hstrip : stripCRLF data = "" := stripCRLF_all_terminators hterm
  have r1 := chatOnData_eq_none data hnone
  rw [hstrip] at r1
  have h2 : lookupNick (chatOnData st fd data).1.nickNames fd = some "" := by
    rw [r1]
    exact lookupNick_insertNick st.nickNames fd ""
  have r2 := chatOnData_eq_some msg2 h2
  refine ⟨h2, ?_, ?_, ?_⟩
  · rw [r1, empty_string_append]
  · rw [r2, empty_string_append, r1]
  · rw [r2]

/-- C10 witness: connection 5's first message "\r\n" names it "", the
join announcement reaches 7, and its next message "hi\n" is broadcast
as ": hi\n". -/
theorem empty_nickname_accepted_witness :
    lookupNick (chatOnData ⟨[5, 7], []⟩ 5 "\r\n").1.nickNames 5 = some "" ∧
    (chatOnData ⟨[5, 7], []⟩ 5 "\r\n").2 =
      chatBroadcast [5, 7] 5 " joined the chat\n" ∧
    (chatOnData (chatOnData ⟨[5, 7], []⟩ 5 "\r\n").1 5 "hi\n").2 =
      chatBroadcast [5, 7] 5 (": " ++ stripCRLF "hi\n" ++ "\n") ∧
    (chatOnData (chatOnData ⟨[5, 7], []⟩ 5 "\r\n").1 5 "hi\n").1 =
      (chatOnData ⟨[5, 7], []⟩ 5 "\r\n").1 :=
  empty_nickname_accepted ⟨[5, 7], []⟩ 5 "\r\n" "hi\n" rfl (by decide)

/-- C2 counterexample: a watched descriptor (5) whose observed flags
include the hangup condition — and nothing else — is not staged for
removal during the pass and is still in the registry at the pass's
commit: the hangup branch of the dispatch loop only logs. -/
theorem hangup_not_staged_cex :
    (Pollfd.mk 5 Flags.inOnly ⟨false, false, false, true, false⟩).revents.pollhup
      = true ∧
    (5 : Int) ∉ (scanFds 0 ⟨fun _ => -1, fun _ => 0, fun _ => []⟩
      [⟨0, Flags.inOnly, Flags.zero⟩,
        ⟨5, Flags.inOnly, ⟨false, false, false, true, false⟩⟩]).removeClients ∧
    (⟨5, Flags.inOnly, ⟨false, false, false, true, false⟩⟩ : Pollfd) ∈
      (runPass 0 ⟨fun _ => -1, fun _ => 0, fun _ => []⟩
        [⟨0, Flags.inOnly, Flags.zero⟩,
          ⟨5, Flags.inOnly, ⟨false, false, false, true, false⟩⟩]).1 := by
  refine ⟨rfl, by decide, by decide⟩

/-- C2 (amended): the hangup flag itself never stages removal (the
POLLHUP branch only logs). A uniquely-watched non-listening descriptor
with the hangup flag is staged for removal in the pass exactly when its
flags also include readable and the bounded read returns a non-positive
count; otherwise it is still in the registry at the pass's commit. -/
theorem hangup_removal_requires_read (serverFd : Int) (env : PassEnv)
    (fds : List Pollfd) (e : Pollfd)
    (he : e ∈ fds) (hsrv : e.fd ≠ serverFd)
    (hhup : e.revents.pollhup = true)
    (huniq : fds.countP (fun x => decide (x.fd = e.fd)) = 1) :
    (e.fd ∈ (scanFds serverFd env fds).removeClients ↔
      (e.revents.pollin = true ∧ env.recv e.fd ≤ 0)) ∧
    (¬(e.revents.pollin = true ∧ env.recv e.fd ≤ 0) →
      e ∈ (runPass serverFd env fds).1) := by
  have hmem := scan_remove_mem serverFd env e.fd fds ScanState.init
  constructor
  · rw [scanFds, hmem]
    constructor
    · rintro (habs | ⟨e', he', h1, h2, h3, h4⟩)
      · exact absurd habs (by simp [ScanState.init])
      · have : e' = e := countP_eq_one_unique huniq he' he
          (by simpa using h4) (by simp)
        rw [← this]
        exact ⟨h1, h3⟩
    · rintro ⟨h1, h2⟩
      exact Or.inr ⟨e, he, h1, hsrv, h2, rfl⟩
  · intro hno
    have hnotin : e.fd ∉ (scanFds serverFd env fds).removeClients := by
      rw [scanFds, hmem]
      rintro (habs | ⟨e', he', h1, h2, h3, h4⟩)
      · exact absurd habs (by simp [ScanState.init])
      · have : e' = e := countP_eq_one_unique huniq he' he
          (by simpa using h4) (by simp)
        rw [this] at h1 h3
        exact hno ⟨h1, h3⟩
    have : e ∈ (closeClients (scanFds serverFd env fds).removeClients fds).1 := by
      rw [closeClients_fst]
      exact List.mem_filter.mpr ⟨he, by simpa using hnotin⟩
    exact List.mem_append_left _ this

/-- C2 amended witness: the concrete hangup-only descriptor 5 is not
staged (the readable condition fails) and survives the commit. -/
theorem hangup_removal_requires_read_witness :
    (⟨5, Flags.inOnly, ⟨false, false, false, true, false⟩⟩ : Pollfd) ∈
      (runPass 0 ⟨fun _ => -1, fun _ => 0, fun _ => []⟩
        [⟨0, Flags.inOnly, Flags.zero⟩,
          ⟨5, Flags.inOnly, ⟨false, false, false, true, false⟩⟩]).1 :=
  (hangup_removal_requires_read 0 ⟨fun _ => -1, fun _ => 0, fun _ => []⟩
      [⟨0, Flags.inOnly, Flags.zero⟩,
        ⟨5, Flags.inOnly, ⟨false, false, false, true, false⟩⟩]
      ⟨5, Flags.inOnly, ⟨false, false, false, true, false⟩⟩
      (by decide) (by decide) rfl (by decide)).2 (by decide)

/-- C3 counterexample: when the multiplexing call errors on the very
first iteration, the loop terminates but `main` returns 0, not a
failure status: the setup succeeded, `run` returns normally after the
`break`, and `main` falls through to `return 0`. -/
theorem poll_error_exit_zero_cex :
    mainExitCode
      (.ok ⟨0, 9000, .broadcastChat, [⟨0, Flags.inOnly, Flags.zero⟩]⟩) 1
      (fun _ => .pollError) = some 0 := rfl

/-- C3 (amended): a multiplexing-call error terminates the readiness
loop, but the process then exits with status 0 (success), because `run`
returns normally and `main` returns 0; only a setup failure (socket
creation, bind, or listen), which is thrown before the loop, produces
the non-zero exit status 1. -/
theorem exit_status_amended :
    (∀ (msg : String) (fuel : Nat) (outcomes : Nat → PollOutcome),
      mainExitCode (.error msg) fuel outcomes = some 1) ∧
    (∀ (st : ServerState) (fuel : Nat) (outcomes : Nat → PollOutcome) (n : Nat),
      mainExitCode (.ok st) fuel outcomes = some n → n = 0) ∧
    (∀ (sfd : Int) (n : Nat) (outcomes : Nat → PollOutcome) (fds : List Pollfd),
      outcomes 0 = .pollError → runLoop sfd (n + 1) outcomes fds = some fds) := by
  refine ⟨fun msg fuel outcomes => rfl, ?_, ?_⟩
  · intro st fuel outcomes n h
    have h' : (match runLoop st.serverFd fuel outcomes st.fds with
        | some _ => some 0
        | none => (none : Option Nat)) = some n := h
    cases hrun : runLoop st.serverFd fuel outcomes st.fds with
    | none => rw [hrun] at h'; cases h'
    | some final => rw [hrun] at h'; cases h'; rfl
  · intro sfd n outcomes fds h
    unfold runLoop
    rw [h]

/-- C3 amended witness: at the concrete poll-error stream the loop
terminates immediately with the registry unchanged. -/
theorem exit_status_amended_witness :
    runLoop 0 1 (fun _ => PollOutcome.pollError)
      [⟨0, Flags.inOnly, Flags.zero⟩] =
      some [⟨0, Flags.inOnly, Flags.zero⟩] :=
  exit_status_amended.2.2 0 0 (fun _ => PollOutcome.pollError)
    [⟨0, Flags.inOnly, Flags.zero⟩] rfl

/-- C1: deferred activation. A connection accepted during a dispatch
pass (staged in the to-add set, with a descriptor fresh for the scanned
registry) receives no `on_client_data` and no `on_client_disconnect`
dispatch in that pass; it is appended to the registry with read-interest
only at the pass's commit — the registry handed to the next pass
contains its entry — and the committed registry is built from the
unmodified scanned sequence (survivors of `close_clients` on the input
registry, with all additions appended after). -/
theorem deferred_activation (serverFd : Int) (env : PassEnv)
    (fds : List Pollfd) (newFd : Int)
    (hnew : newFd ∈ (scanFds serverFd env fds).newClients)
    (hfresh : ∀ e ∈ fds, e.fd ≠ newFd) :
    (runPass serverFd env fds).2.countP (Event.isDataFor newFd) = 0 ∧
    (runPass serverFd env fds).2.countP (Event.isDisconnectFor newFd) = 0 ∧
    (⟨newFd, Flags.inOnly, Flags.zero⟩ : Pollfd) ∈ (runPass serverFd env fds).1 ∧
    (runPass serverFd env fds).1 =
      (closeClients (scanFds serverFd env fds).removeClients fds).1 ++
        (scanFds serverFd env fds).newClients.map
          (fun fd => ⟨fd, Flags.inOnly, Flags.zero⟩) := by
  have hT : (runPass serverFd env fds).2 =
      (scanFds serverFd env fds).trace ++
        (closeClients (scanFds serverFd env fds).removeClients fds).2.1 := rfl
  have hscan : (scanFds serverFd env fds).trace.countP (Event.isDataFor newFd) =
      fds.countP (dataCond serverFd env newFd) := by
    have h := scan_trace_data_count serverFd env newFd fds ScanState.init
    simpa [scanFds, ScanState.init] using h
  have hcond : fds.countP (dataCond serverFd env newFd) = 0 := by
    apply List.countP_eq_zero.mpr
    intro e he
    simp [dataCond, hfresh e he]
  refine ⟨?_, ?_, ?_, rfl⟩
  · rw [hT, List.countP_append, hscan, hcond,
      closeClients_data_count]
  · have hscand : (scanFds serverFd env fds).trace.countP
        (Event.isDisconnectFor newFd) = 0 := by
      have h := scan_trace_disconnect_count serverFd env newFd fds ScanState.init
      simpa [scanFds, ScanState.init] using h
    rw [hT, List.countP_append, hscand, closeClients_disconnect_count,
      Nat.zero_add]
    apply List.countP_eq_zero.mpr
    intro e he
    simp [hfresh e he]
  · exact List.mem_append_right _ (List.mem_map_of_mem _ hnew)

/-- C1 witness: a connection accepted from the listening descriptor in
a concrete pass appears in the committed registry with read-interest. -/
theorem deferred_activation_witness :
    (⟨7, Flags.inOnly, Flags.zero⟩ : Pollfd) ∈
      (runPass 0 ⟨fun _ => 7, fun _ => 0, fun _ => []⟩
        [⟨0, Flags.inOnly, Flags.inOnly⟩]).1 :=
  (deferred_activation 0 ⟨fun _ => 7, fun _ => 0, fun _ => []⟩
    [⟨0, Flags.inOnly, Flags.inOnly⟩] 7 (by decide) (by decide)).2.2.1

/-- C4: dispatch of a readable non-listening descriptor (watched by a
unique registry entry). A non-positive bounded-read result stages the
descriptor for removal and the pass makes no data callback for it; a
positive result produces exactly one data callback in the pass, carrying
exactly the bytes the read deposited, and does not stage the descriptor
for removal. -/
theorem read_dispatch_correct (serverFd : Int) (env : PassEnv)
    (fds : List Pollfd) (e : Pollfd)
    (he : e ∈ fds) (hef : e.fd ≠ serverFd)
    (hin : e.revents.pollin = true)
    (huniq : fds.countP (fun x => decide (x.fd = e.fd)) = 1) :
    (env.recv e.fd ≤ 0 →
      e.fd ∈ (scanFds serverFd env fds).removeClients ∧
      (runPass serverFd env fds).2.countP (Event.isDataFor e.fd) = 0) ∧
    (0 < env.recv e.fd →
      (runPass serverFd env fds).2.countP (Event.isDataFor e.fd) = 1 ∧
      Event.data e.fd (env.recvBytes e.fd) ∈ (runPass serverFd env fds).2 ∧
      e.fd ∉ (scanFds serverFd env fds).removeClients) := by
  have hT : (runPass serverFd env fds).2 =
      (scanFds serverFd env fds).trace ++
        (closeClients (scanFds serverFd env fds).removeClients fds).2.1 := rfl
  have hscan : (scanFds serverFd env fds).trace.countP (Event.isDataFor e.fd) =
      fds.countP (dataCond serverFd env e.fd) := by
    have h := scan_trace_data_count serverFd env e.fd fds ScanState.init
    simpa [scanFds, ScanState.init] using h
  constructor
  · intro hnb
    constructor
    · exact (scan_remove_mem serverFd env e.fd fds ScanState.init).mpr
        (Or.inr ⟨e, he, hin, hef, hnb, rfl⟩)
    · rw [hT, List.countP_append, hscan, closeClients_data_count]
      have : fds.countP (dataCond serverFd env e.fd) = 0 := by
        apply List.countP_eq_zero.mpr
        intro x hx
        by_cases hxe : x.fd = e.fd
        · have : ¬(0 < env.recv x.fd) := by rw [hxe]; omega
          simp [dataCond, this]
        · simp [dataCond, hxe]
      rw [this]
  · intro h0
    have hcount : fds.countP (dataCond serverFd env e.fd) = 1 := by
      have hub : fds.countP (dataCond serverFd env e.fd) ≤
          fds.countP (fun x => decide (x.fd = e.fd)) := by
        apply List.countP_mono_left
        intro x hx hp
        simp only [dataCond, Bool.and_eq_true] at hp
        simpa using hp.2
      have hlb : 0 < fds.countP (dataCond serverFd env e.fd) :=
        List.countP_pos_iff.mpr ⟨e, he, by simp [dataCond, hin, hef, h0]⟩
      omega
    have htot : (runPass serverFd env fds).2.countP (Event.isDataFor e.fd) = 1 := by
      rw [hT, List.countP_append, hscan, hcount, closeClients_data_count]
    refine ⟨htot, ?_, ?_⟩
    · have hpos : 0 < (runPass serverFd env fds).2.countP (Event.isDataFor e.fd) := by
        omega
      obtain ⟨ev, hev, hevp⟩ := List.countP_pos_iff.mp hpos
      rcases List.mem_append.mp (hT ▸ hev) with hs | hc
      · rcases scan_trace_mem serverFd env fds ScanState.init ev hs with
          habs | ⟨x, rfl⟩ | ⟨e', he', rfl⟩
        · exact absurd habs (by simp [ScanState.init])
        · exact absurd hevp (by simp [Event.isDataFor])
        · have hfd : e'.fd = e.fd := by
            simpa [Event.isDataFor] using hevp
          rw [hfd] at hev
          exact hev
      · exfalso
        rw [closeClients_trace] at hc
        obtain ⟨x, -, rfl⟩ := List.mem_map.mp hc
        exact absurd hevp (by simp [Event.isDataFor])
    · intro habs
      rcases (scan_remove_mem serverFd env e.fd fds ScanState.init).mp habs with
        h | ⟨e', he', h1, h2, h3, h4⟩
      · exact absurd h (by simp [ScanState.init])
      · have : e' = e := countP_eq_one_unique huniq he' he
          (by simpa using h4) (by simp)
        rw [this] at h3
        omega

/-- C4 witness: a concrete positive read on descriptor 5 yields the
data callback with the received bytes in the pass trace. -/
theorem read_dispatch_correct_witness :
    Event.data 5 [1, 2, 3] ∈
      (runPass 0 ⟨fun _ => -1, fun _ => 3, fun _ => [1, 2, 3]⟩
        [⟨0, Flags.inOnly, Flags.zero⟩, ⟨5, Flags.inOnly, Flags.inOnly⟩]).2 :=
  ((read_dispatch_correct 0 ⟨fun _ => -1, fun _ => 3, fun _ => [1, 2, 3]⟩
      [⟨0, Flags.inOnly, Flags.zero⟩, ⟨5, Flags.inOnly, Flags.inOnly⟩]
      ⟨5, Flags.inOnly, Flags.inOnly⟩
      (by decide) (by decide) rfl (by decide)).2 (by decide)).2.1

/-- C5: a connection that disconnects (its descriptor, watched by a
unique registry entry, is in the removal staging set after the scan)
receives exactly one `on_client_disconnect` call in the whole pass, its
entry is gone from the committed registry, and staging the same
descriptor for removal repeatedly is idempotent, so simultaneous
conditions cannot multiply the callback. -/
theorem disconnect_exactly_once (serverFd : Int) (env : PassEnv)
    (fds : List Pollfd) (f : Int)
    (huniq : fds.countP (fun x => decide (x.fd = f)) = 1)
    (hrm : f ∈ (scanFds serverFd env fds).removeClients) :
    (runPass serverFd env fds).2.countP (Event.isDisconnectFor f) = 1 ∧
    (∀ e ∈ (closeClients (scanFds serverFd env fds).removeClients fds).1,
      e.fd ≠ f) ∧
    (∀ s : List Int, insertSet (insertSet s f) f = insertSet s f) := by
  have hT : (runPass serverFd env fds).2 =
      (scanFds serverFd env fds).trace ++
        (closeClients (scanFds serverFd env fds).removeClients fds).2.1 := rfl
  refine ⟨?_, ?_, fun s => insertSet_idem s f⟩
  · have hscand : (scanFds serverFd env fds).trace.countP
        (Event.isDisconnectFor f) = 0 := by
      have h := scan_trace_disconnect_count serverFd env f fds ScanState.init
      simpa [scanFds, ScanState.init] using h
    rw [hT, List.countP_append, hscand, closeClients_disconnect_count]
    have hpt : (fun e : Pollfd => decide (e.fd = f) &&
        decide (e.fd ∈ (scanFds serverFd env fds).removeClients)) =
        (fun e : Pollfd => decide (e.fd = f)) := by
      funext e
      by_cases h : e.fd = f
      · simp [h, hrm]
      · simp [h]
    rw [hpt, huniq]
  · intro e hecl
    rw [closeClients_fst] at hecl
    intro hef
    have := (List.mem_filter.mp hecl).2
    rw [hef] at this
    simp [hrm] at this

/-- C5 witness: the concrete end-of-file read on descriptor 5 yields
exactly one disconnect callback in the pass. -/
theorem disconnect_exactly_once_witness :
    (runPass 0 ⟨fun _ => -1, fun _ => 0, fun _ => []⟩
      [⟨0, Flags.inOnly, Flags.zero⟩,
        ⟨5, Flags.inOnly, Flags.inOnly⟩]).2.countP
      (Event.isDisconnectFor 5) = 1 :=
  (disconnect_exactly_once 0 ⟨fun _ => -1, fun _ => 0, fun _ => []⟩
    [⟨0, Flags.inOnly, Flags.zero⟩, ⟨5, Flags.inOnly, Flags.inOnly⟩] 5
    (by decide) (by decide)).1

end PollTcp
